import Mathlib

/-!
A verification development for the steamos-manager service-supervision and
resource-arbitration engine.

The Rust sources are embedded shallowly:

* `Daemon.*` embeds `src/steamos-manager/src/daemon/mod.rs` (`Daemon::run`,
  `Daemon::handle_message`): the event loop is modelled as a step function on
  an explicit event type, and the shutdown drain as a fold over the collapsed
  results of the remaining tasks.
* `SysfsWriterQueue.*` embeds the write-coalescing queue of
  `src/steamos-manager/src/power.rs` (`SysfsWriterQueue::send`,
  `SysfsWriterQueue::recv` plus the `SysfsWriterService::run` worker body).
  Oneshot receivers are modelled as fresh numeric ids with a delivery log;
  the file system is a path-to-contents map.
* `TdpManagerService.*` embeds the TDP arbiter of the same file
  (`update_download_mode`, `get_download_mode_handle`, `handle_command`, and
  the lease-release arm of `run`).
* `AmdgpuHwmonTdpLimitManager.*` and `FirmwareAttributeLimitManager.*` embed
  the two driver implementations of the `TdpLimitManager` trait.

Hash maps are modelled as association lists; the map operations below mirror
the `HashMap` calls used by the source (insert returning the previous value,
in-place modification of an occupied entry, removal of an entry).
-/

set_option autoImplicit false

universe u v

deriving instance DecidableEq for Except

/-- First-match lookup in an association list, mirroring `HashMap::get`. -/
def alookup {κ : Type u} {α : Type v} [DecidableEq κ] (k : κ) : List (κ × α) → Option α
  | [] => none
  | (k', v) :: l => if k' = k then some v else alookup k l

/-- Replace the value of the first entry with key `k`, keeping its position;
mirrors in-place mutation of an occupied `HashMap` entry. -/
def aset {κ : Type u} {α : Type v} [DecidableEq κ] (k : κ) (v : α) : List (κ × α) → List (κ × α)
  | [] => []
  | (k', v') :: l => if k' = k then (k', v) :: l else (k', v') :: aset k v l

/-- Remove the first entry with key `k`; mirrors `HashMap::remove`. -/
def aerase {κ : Type u} {α : Type v} [DecidableEq κ] (k : κ) : List (κ × α) → List (κ × α)
  | [] => []
  | (k', v') :: l => if k' = k then l else (k', v') :: aerase k l

@[simp] theorem alookup_nil {κ : Type u} {α : Type v} [DecidableEq κ] (k : κ) :
    alookup k ([] : List (κ × α)) = none := rfl

@[simp] theorem alookup_cons {κ : Type u} {α : Type v} [DecidableEq κ] (k k' : κ) (v : α)
    (l : List (κ × α)) : alookup k ((k', v) :: l) = if k' = k then some v else alookup k l := rfl

theorem alookup_aset_self {κ : Type u} {α : Type v} [DecidableEq κ] (k : κ) (v w : α)
    (l : List (κ × α)) (h : alookup k l = some w) : alookup k (aset k v l) = some v := by
  induction l with
  | nil => simp at h
  | cons hd tl ih =>
    obtain ⟨k', v'⟩ := hd
    by_cases hk : k' = k
    · simp [aset, hk]
    · simp [aset, hk] at h ⊢
      exact ih h

/-! ## Daemon event loop (src/steamos-manager/src/daemon/mod.rs)

Results of fallible operations are collapsed to `Except String Unit`; the
event type records, for each `tokio::select!` arm of `Daemon::run`, the data
that arm branches on.  A `sighup` event carries the outcome of
`read_config` and the outcome the context's `reload` hook would produce if
invoked; a `command` event carries the `DaemonCommand` with the outcomes of
the fallible operations its handling performs. -/

/-- Inbound commands (`DaemonCommand` in daemon/mod.rs), each constructor
carrying the results of the fallible calls its handler makes. -/
inductive DaemonCommand where
  | contextCommand (result : Except String Unit)
  | readConfig (configRead : Except String Unit) (reloadHook : Except String Unit)
  | writeState (result : Except String Unit)
deriving DecidableEq

/-- One event that can fire in the `tokio::select!` of `Daemon::run`. -/
inductive DaemonEvent where
  | serviceDone (r : Except String Unit)
  | sigint
  | sigterm
  | sighup (configRead : Except String Unit) (reloadHook : Except String Unit)
  | command (cmd : DaemonCommand)
  | sigquit
deriving DecidableEq

/-- Outcome of one iteration of the event loop: continue looping, or break
out carrying the loop's result. -/
inductive LoopOutcome where
  | next
  | exit (r : Except String Unit)
deriving DecidableEq

/-- `Daemon::handle_message`: a context command or state write propagates its
result; `ReadConfig` swallows a configuration-read error (logging it and
returning `Ok`), but propagates an error from the context's `reload` hook. -/
def Daemon.handle_message : DaemonCommand → Except String Unit
  | .contextCommand r => r
  | .readConfig cfg hook =>
    match cfg with
    | .ok () => hook
    | .error _ => .ok ()
  | .writeState r => r

/-- One iteration of the `loop` in `Daemon::run` (daemon/mod.rs lines
161-219): each select arm produces a `Result`, an error result breaks the
loop (`if res.is_err() break res`), SIGINT/SIGTERM break with `Ok`, and
SIGQUIT is an immediate error. -/
def Daemon.loopStep : DaemonEvent → LoopOutcome
  | .serviceDone (.ok ()) => .next
  | .serviceDone (.error e) => .exit (.error e)
  | .sigint => .exit (.ok ())
  | .sigterm => .exit (.ok ())
  | .sighup cfg hook =>
    match (match cfg with
      | .ok () => hook
      | .error _ => .ok ()) with
    | .ok () => .next
    | .error e => .exit (.error e)
  | .command cmd =>
    match Daemon.handle_message cmd with
    | .ok () => .next
    | .error e => .exit (.error e)
  | .sigquit => .exit (.error "Got SIGQUIT")

/-- The shutdown drain of `Daemon::run` (daemon/mod.rs lines 224-230): after
the loop breaks with `res`, every remaining task is joined and each join
outcome that is an error overwrites `res`. -/
def Daemon.drainServices (res : Except String Unit) : List (Except String Unit) →
    Except String Unit
  | [] => res
  | t :: rest =>
    Daemon.drainServices (match t with
      | .ok () => res
      | .error e => .error e) rest

/-- The tail of `Daemon::run` after the event loop breaks: the root
cancellation token is cancelled, then all remaining tasks are drained. -/
structure RunShutdown where
  cancelled : Bool
  result : Except String Unit
deriving DecidableEq

/-- `Daemon::run` from the loop break onwards (daemon/mod.rs lines 220-232). -/
def Daemon.shutdown (breakRes : Except String Unit) (drained : List (Except String Unit)) :
    RunShutdown :=
  { cancelled := true, result := Daemon.drainServices breakRes drained }

/-- The error of a collapsed task result, if any. -/
def errOf : Except String Unit → Option String
  | .ok () => none
  | .error e => some e

theorem drainServices_error (tasks : List (Except String Unit)) :
    ∀ e : String, ∃ e', Daemon.drainServices (.error e) tasks = .error e' := by
  induction tasks with
  | nil => exact fun e => ⟨e, rfl⟩
  | cons t rest ih =>
    intro e
    match t with
    | .ok () => exact ih e
    | .error e2 => exact ih e2

theorem drainServices_eq_lastError (tasks : List (Except String Unit)) :
    ∀ res : Except String Unit,
      Daemon.drainServices res tasks =
        match ((res :: tasks).filterMap errOf).getLast? with
        | some e => .error e
        | none => .ok () := by
  induction tasks with
  | nil =>
    intro res
    match res with
    | .ok () => rfl
    | .error e => rfl
  | cons t rest ih =>
    intro res
    match res, t with
    | .ok (), .ok () =>
      have := ih (Except.ok ())
      simpa [Daemon.drainServices, errOf, List.filterMap] using this
    | .ok (), .error e2 =>
      have := ih (Except.error e2)
      simp only [Daemon.drainServices]
      rw [this]
      simp [errOf, List.filterMap]
    | .error e, .ok () =>
      have := ih (Except.error e)
      simp only [Daemon.drainServices]
      rw [this]
      simp [errOf, List.filterMap]
    | .error e, .error e2 =>
      have := ih (Except.error e2)
      simp only [Daemon.drainServices]
      rw [this]
      have hlast : ((Except.error e :: Except.error e2 :: rest).filterMap errOf).getLast? =
          ((Except.error e2 :: rest).filterMap errOf).getLast? := by
        simp only [List.filterMap, errOf]
        rw [List.getLast?_cons_cons]
      rw [hlast]

/-! ## Write coalescer (SysfsWriterQueue / SysfsWriterService, power.rs) -/

/-- The completion outcome type (`SysfsWritten` in power.rs). -/
inductive SysfsWritten where
  | written (r : Except String Unit)
  | superseded
deriving DecidableEq

/-- The coalescer state.  `values` is the mutex-guarded pending map
(`SysfsQueueMap`): path to (contents, oneshot sender).  Oneshot channels are
modelled by fresh numeric ids drawn from `nextId`; `delivered` logs what each
receiver was told; `files` is the sysfs file system as a path-contents map. -/
structure SysfsWriterQueue where
  values : List (String × (String × Nat))
  delivered : List (Nat × SysfsWritten)
  files : List (String × String)
  nextId : Nat
deriving DecidableEq

/-- `SysfsWriterQueue::new`. -/
def SysfsWriterQueue.new : SysfsWriterQueue :=
  { values := [], delivered := [], files := [], nextId := 0 }

/-- `SysfsWriterQueue::send` (power.rs lines 188-195): insert the new request
into the pending map; if a request for the same path was pending, its sender
is told `Superseded`.  Returns the fresh receiver id. -/
def SysfsWriterQueue.send (q : SysfsWriterQueue) (path contents : String) :
    Nat × SysfsWriterQueue :=
  match alookup path q.values with
  | some (_, oldTx) =>
    (q.nextId, { q with values := aset path (contents, q.nextId) q.values,
                        delivered := (oldTx, .superseded) :: q.delivered,
                        nextId := q.nextId + 1 })
  | none =>
    (q.nextId, { q with values := (path, (contents, q.nextId)) :: q.values,
                        nextId := q.nextId + 1 })

/-- Modelled from the spec: `write_synced` is defined in the crate root,
which is not among the given sources; per the spec the worker "performs the
write with an explicit flush/sync so the write is durable before the
completion is signaled".  It is modelled as a durable, successful update of
the file map. -/
def write_synced (files : List (String × String)) (path contents : String) :
    Except String Unit × List (String × String) :=
  (.ok (), (path, contents) :: aerase path files)

/-- One iteration of the `SysfsWriterService::run` worker (power.rs lines
228-238) together with `SysfsWriterQueue::recv` (lines 197-208), for the
path the worker picked: remove the pending entry, perform the write, and
deliver `Written(result)` to that entry's receiver.  The source picks an
arbitrary key of the map; the model takes the picked path as a parameter. -/
def SysfsWriterQueue.drainPath (q : SysfsWriterQueue) (path : String) : SysfsWriterQueue :=
  match alookup path q.values with
  | none => q
  | some (contents, tx) =>
    { q with values := aerase path q.values,
             delivered := (tx, .written (write_synced q.files path contents).1) :: q.delivered,
             files := (write_synced q.files path contents).2 }

/-- A sequence of `send` calls for one path, returning the receiver ids in
order. -/
def SysfsWriterQueue.sendAll (q : SysfsWriterQueue) (path : String) :
    List String → List Nat × SysfsWriterQueue
  | [] => ([], q)
  | v :: vs =>
    ((q.send path v).1 :: ((q.send path v).2.sendAll path vs).1,
     ((q.send path v).2.sendAll path vs).2)

/-- `SysfsWriterService::init` (power.rs lines 217-222) acting on the
process-wide `SYSFS_WRITER` once-cell, modelled as an `Option` holding the
bound queue. -/
def SysfsWriterService.init (g : Option SysfsWriterQueue) :
    Except String SysfsWriterQueue × Option SysfsWriterQueue :=
  match g with
  | some q => (.error "sysfs writer already active", some q)
  | none => (.ok SysfsWriterQueue.new, some SysfsWriterQueue.new)

/-! ## Claim theorems: supervisor and coalescer singleton -/

/-- Claim C4, counterexample: the claim says the first error encountered is
the one `Daemon::run` returns and a later task's error never replaces an
earlier one; but when the loop breaks with `Err("first")` and a drained task
then fails with `Err("second")`, the drain loop overwrites the result and
`run` returns `Err("second")`. -/
theorem shutdown_first_error_cex :
    (Daemon.shutdown (.error "first") [.error "second"]).result = .error "second" ∧
    (Daemon.shutdown (.error "first") [.error "second"]).result ≠ .error "first" := by
  refine ⟨rfl, ?_⟩
  decide

/-- Claim C4, amended: during supervisor shutdown every still-running task is
drained before `run` returns, and the result is determined by the LAST error
among the loop's result followed by the drained task results in join order
(a later task's error overwrites an earlier one); if none errs, the loop's
result stands. -/
theorem shutdown_last_error_wins (breakRes : Except String Unit)
    (drained : List (Except String Unit)) :
    (Daemon.shutdown breakRes drained).cancelled = true ∧
    (Daemon.shutdown breakRes drained).result =
      match ((breakRes :: drained).filterMap errOf).getLast? with
      | some e => .error e
      | none => .ok () :=
  ⟨rfl, drainServices_eq_lastError drained breakRes⟩

/-- Claim C5: a supervised task finishing with `Err(e)` breaks the event loop
with that error, after which the root token is cancelled and all remaining
tasks are joined, and `run` returns an error; a task finishing with `Ok(())`
leaves the loop running.  (No code path restarts a finished task: the model
has no such transition.) -/
theorem task_error_fail_fast (e : String) (drained : List (Except String Unit)) :
    Daemon.loopStep (.serviceDone (.error e)) = .exit (.error e) ∧
    (Daemon.shutdown (.error e) drained).cancelled = true ∧
    (∃ e', (Daemon.shutdown (.error e) drained).result = .error e') ∧
    Daemon.loopStep (.serviceDone (.ok ())) = .next :=
  ⟨rfl, rfl, drainServices_error drained e, rfl⟩

/-- Claim C6, counterexample: the claim says no configuration-reload error
terminates `Daemon::run`; but an error returned by the context's `reload`
hook (on SIGHUP or on a `ReadConfig` command) becomes the select arm's
result and breaks the event loop. -/
theorem reload_hook_error_cex :
    Daemon.loopStep (.sighup (.ok ()) (.error "reload hook failed")) =
      .exit (.error "reload hook failed") ∧
    Daemon.loopStep (.command (.readConfig (.ok ()) (.error "reload hook failed"))) =
      .exit (.error "reload hook failed") :=
  ⟨rfl, rfl⟩

/-- Claim C6, amended: an error from re-reading the configuration is logged
and the event loop continues on the prior configuration (on both the SIGHUP
and the `ReadConfig` command path, and the reload hook is then not invoked);
but an error from the context's reload hook terminates the loop with that
error. -/
theorem reload_error_handling (e h : String) :
    Daemon.loopStep (.sighup (.error e) (.ok ())) = .next ∧
    Daemon.loopStep (.sighup (.error e) (.error h)) = .next ∧
    Daemon.loopStep (.command (.readConfig (.error e) (.ok ()))) = .next ∧
    Daemon.loopStep (.command (.readConfig (.error e) (.error h))) = .next ∧
    Daemon.loopStep (.sighup (.ok ()) (.error h)) = .exit (.error h) ∧
    Daemon.loopStep (.command (.readConfig (.ok ()) (.error h))) = .exit (.error h) :=
  ⟨rfl, rfl, rfl, rfl, rfl, rfl⟩

/-- Claim C9: the first `SysfsWriterService::init` succeeds and binds the
process-wide writer queue; every subsequent call fails with an explicit
error and leaves the existing binding untouched. -/
theorem sysfs_writer_init_once :
    SysfsWriterService.init none = (.ok SysfsWriterQueue.new, some SysfsWriterQueue.new) ∧
    ∀ q, SysfsWriterService.init (some q) = (.error "sysfs writer already active", some q) :=
  ⟨rfl, fun _ => rfl⟩

/-! ## Driver implementations (TdpLimitManager impls, power.rs) -/

/-- `AmdgpuHwmonTdpLimitManager` device state: the configured range (from the
device config, `None` when unconfigured) and the hwmon `power1_cap` and
`power2_cap` files (in µW). -/
structure AmdgpuHwmonTdpLimitManager where
  range : Option (Nat × Nat)
  power1_cap : Nat
  power2_cap : Nat
deriving DecidableEq

/-- `AmdgpuHwmonTdpLimitManager::get_tdp_limit` (power.rs lines 394-399):
µW to W conversion at the read boundary. -/
def AmdgpuHwmonTdpLimitManager.get_tdp_limit (m : AmdgpuHwmonTdpLimitManager) : Nat :=
  m.power1_cap / 1000000

/-- `AmdgpuHwmonTdpLimitManager::get_tdp_limit_range` (power.rs lines
426-438). -/
def AmdgpuHwmonTdpLimitManager.get_tdp_limit_range (m : AmdgpuHwmonTdpLimitManager) :
    Except String (Nat × Nat) :=
  match m.range with
  | some r => .ok r
  | none => .error "No TDP limit range configured"

/-- `AmdgpuHwmonTdpLimitManager::set_tdp_limit` (power.rs lines 401-424):
`ensure!(range.contains(&limit))` precedes every write; in range, both cap
files receive `limit` converted to µW. -/
def AmdgpuHwmonTdpLimitManager.set_tdp_limit (m : AmdgpuHwmonTdpLimitManager) (limit : Nat) :
    Except String Unit × AmdgpuHwmonTdpLimitManager :=
  match m.get_tdp_limit_range with
  | .error e => (.error e, m)
  | .ok (lo, hi) =>
    if lo ≤ limit ∧ limit ≤ hi then
      (.ok (), { m with power1_cap := limit * 1000000, power2_cap := limit * 1000000 })
    else (.error "Invalid limit", m)

/-- `FirmwareAttributeLimitManager` device state: the `is_active` platform
check (platform profile matching the configured one), the `min_value` and
`max_value` files, and the three `current_value` attributes. -/
structure FirmwareAttributeLimitManager where
  is_active : Bool
  min_value : Nat
  max_value : Nat
  spl : Nat
  sppt : Nat
  fppt : Nat
deriving DecidableEq

/-- `FirmwareAttributeLimitManager::set_tdp_limit` (power.rs lines 461-488):
fails when inactive; otherwise the range check precedes every write; in
range, spl, sppt and fppt receive `limit`. -/
def FirmwareAttributeLimitManager.set_tdp_limit (m : FirmwareAttributeLimitManager)
    (limit : Nat) : Except String Unit × FirmwareAttributeLimitManager :=
  if m.is_active = false then (.error "TDP limiting not active", m)
  else if m.min_value ≤ limit ∧ limit ≤ m.max_value then
    (.ok (), { m with spl := limit, sppt := limit, fppt := limit })
  else (.error "Invalid limit", m)

/-! ## TDP arbiter (TdpManagerService, power.rs) -/

/-- Abstract model of the `TdpLimitManager` trait object the arbiter holds
(also reached through the root-manager proxy when the arbiter writes): the
`is_active` answer, the currently stored limit, the configured range, and a
log of the limits written so far.  `set_tdp_limit` checks activity and range
before writing, as the driver implementations above do. -/
structure TdpLimitManager where
  is_active : Bool
  tdp_limit : Nat
  range_min : Nat
  range_max : Nat
  writes : List Nat
deriving DecidableEq

/-- Trait-level `set_tdp_limit`: reject when inactive or out of range,
otherwise store the limit and log the write. -/
def TdpLimitManager.set_tdp_limit (m : TdpLimitManager) (limit : Nat) :
    Except String Unit × TdpLimitManager :=
  if m.is_active = false then (.error "TDP limiting not active", m)
  else if m.range_min ≤ limit ∧ limit ≤ m.range_max then
    (.ok (), { m with tdp_limit := limit, writes := m.writes ++ [limit] })
  else (.error "Invalid limit", m)

/-- The arbiter state (`TdpManagerService` in power.rs): the lease table
`download_handles`, the cached `previous_limit`, the configured
`download_mode_limit` override, and the driver.  The spawned liveness
watchers are not part of the state: a watcher's completion is delivered to
`release_download_handle` below. -/
structure TdpManagerService where
  download_handles : List (String × Nat)
  previous_limit : Option Nat
  download_mode_limit : Option Nat
  manager : TdpLimitManager
deriving DecidableEq

/-- `TdpManagerService::set_tdp_limit` (power.rs lines 691-709): the write
goes through the root-manager proxy to the driver's `set_tdp_limit`; the
signal emission has no state effect here. -/
def TdpManagerService.set_tdp_limit (s : TdpManagerService) (limit : Nat) :
    Except String Unit × TdpManagerService :=
  match s.manager.set_tdp_limit limit with
  | (.ok (), m) => (.ok (), { s with manager := m })
  | (.error e, m) => (.error e, { s with manager := m })

/-- `TdpManagerService::update_download_mode` (power.rs lines 617-650). -/
def TdpManagerService.update_download_mode (s : TdpManagerService) :
    Except String Unit × TdpManagerService :=
  if s.manager.is_active = false then (.ok (), s)
  else match s.download_mode_limit with
  | none => (.ok (), s)
  | some dml =>
    if s.manager.tdp_limit = 0 then (.ok (), s)
    else if s.download_handles = [] then
      match s.previous_limit with
      | none => (.ok (), s)
      | some prev =>
        match s.set_tdp_limit prev with
        | (.ok (), s1) => (.ok (), { s1 with previous_limit := none })
        | (.error e, s1) => (.error e, s1)
    else
      let s1 : TdpManagerService :=
        if s.previous_limit = none then { s with previous_limit := some s.manager.tdp_limit }
        else s
      if s.manager.tdp_limit ≠ dml then s1.set_tdp_limit dml
      else (.ok (), s1)

/-- The map update `entry(id).and_modify(|c| c += 1).or_insert(1)` used by
`get_download_mode_handle`. -/
def bumpHandle (id : String) (l : List (String × Nat)) : List (String × Nat) :=
  match alookup id l with
  | some n => aset id (n + 1) l
  | none => (id, 1) :: l

/-- `TdpManagerService::get_download_mode_handle` (power.rs lines 652-669):
`None` when no download-mode override is configured; otherwise bump the
refcount for the identifier, spawn the liveness watcher (whose completion
arrives later at `release_download_handle`), and run `update_download_mode`,
propagating its error.  The returned pipe fd is modelled as `Unit`. -/
def TdpManagerService.get_download_mode_handle (s : TdpManagerService) (id : String) :
    Except String (Option Unit) × TdpManagerService :=
  match s.download_mode_limit with
  | none => (.ok none, s)
  | some _ =>
    match TdpManagerService.update_download_mode
        { s with download_handles := bumpHandle id s.download_handles } with
    | (.ok (), s2) => (.ok (some ()), s2)
    | (.error e, s2) => (.error e, s2)

/-- `TdpManagerCommand` (power.rs lines 155-163); reply channels are left to
the individual operation models. -/
inductive TdpManagerCommand where
  | setTdpLimit (limit : Nat)
  | getTdpLimit
  | getTdpLimitRange
  | isActive
  | updateDownloadMode
  | enterDownloadMode (id : String)
  | listDownloadModeHandles
deriving DecidableEq

/-- `TdpManagerService::handle_command` (power.rs lines 711-739).  A
`SetTdpLimit` is written only when the lease table is empty; pure reads
reply without touching state; `EnterDownloadMode` sends the fd result to its
reply channel and returns `Ok` itself. -/
def TdpManagerService.handle_command (s : TdpManagerService) (c : TdpManagerCommand) :
    Except String Unit × TdpManagerService :=
  match c with
  | .setTdpLimit limit =>
    if s.download_handles = [] then s.set_tdp_limit limit
    else (.ok (), s)
  | .getTdpLimit => (.ok (), s)
  | .getTdpLimitRange => (.ok (), s)
  | .isActive => (.ok (), s)
  | .updateDownloadMode => s.update_download_mode
  | .enterDownloadMode id => (.ok (), (s.get_download_mode_handle id).2)
  | .listDownloadModeHandles => (.ok (), s)

/-- `ListDownloadModeHandles` reply: a snapshot of the lease table. -/
def TdpManagerService.list_download_mode_handles (s : TdpManagerService) :
    List (String × Nat) :=
  s.download_handles

/-- The `download_set.join_next()` arm of `TdpManagerService::run` (power.rs
lines 767-786): a liveness watcher completed for `id`.  A refcount of 1
removes the entry and, if the table is then empty, runs
`update_download_mode` with its error logged and discarded; a larger count
is decremented in place; an unknown identifier is ignored. -/
def TdpManagerService.release_download_handle (s : TdpManagerService) (id : String) :
    TdpManagerService :=
  match alookup id s.download_handles with
  | none => s
  | some 1 =>
    if aerase id s.download_handles = [] then
      (TdpManagerService.update_download_mode
        { s with download_handles := aerase id s.download_handles }).2
    else { s with download_handles := aerase id s.download_handles }
  | some n => { s with download_handles := aset id (n - 1) s.download_handles }

/-- Iterated lease releases, in the order the watchers complete. -/
def TdpManagerService.releaseAll (s : TdpManagerService) : List String → TdpManagerService
  | [] => s
  | id :: ids => (s.release_download_handle id).releaseAll ids

/-! ## Claim theorems: arbiter scenarios -/

/-- Claim C2: with configured range [3,15], download-mode override 6 and
initial driver limit 15, `EnterLease("a")` drives the limit to 6 and caches
15 as the previous limit; a subsequent `SetLimit(15)` leaves the driver at
6; releasing the lease restores the driver to 15 and clears the cache. -/
theorem download_mode_end_to_end :
    (let s0 : TdpManagerService :=
      { download_handles := [], previous_limit := none, download_mode_limit := some 6,
        manager := { is_active := true, tdp_limit := 15, range_min := 3, range_max := 15,
                     writes := [] } }
     (s0.get_download_mode_handle "a").1 = .ok (some ()) ∧
     (s0.get_download_mode_handle "a").2.manager.tdp_limit = 6 ∧
     (s0.get_download_mode_handle "a").2.previous_limit = some 15 ∧
     ((s0.get_download_mode_handle "a").2.handle_command (.setTdpLimit 15)).2.manager.tdp_limit
        = 6 ∧
     (((s0.get_download_mode_handle "a").2.handle_command
         (.setTdpLimit 15)).2.release_download_handle "a").manager.tdp_limit = 15 ∧
     (((s0.get_download_mode_handle "a").2.handle_command
         (.setTdpLimit 15)).2.release_download_handle "a").previous_limit = none) := by
  decide

/-- Claim C7: from an empty lease table, two `EnterLease("a")` calls leave
the lease table at {"a": 2}; one release leaves {"a": 1}; the second release
removes the key entirely. -/
theorem lease_refcounting :
    (let s0 : TdpManagerService :=
      { download_handles := [], previous_limit := none, download_mode_limit := some 6,
        manager := { is_active := true, tdp_limit := 15, range_min := 3, range_max := 15,
                     writes := [] } }
     let s2 := ((s0.get_download_mode_handle "a").2.get_download_mode_handle "a").2
     s2.list_download_mode_handles = [("a", 2)] ∧
     (s2.release_download_handle "a").list_download_mode_handles = [("a", 1)] ∧
     ((s2.release_download_handle "a").release_download_handle
        "a").list_download_mode_handles = []) := by
  decide

/-- Claim C10: whenever the driver reports a current limit of 0, the
arbiter's download-mode update returns success while changing nothing: no
previous limit is cached, no override is written, nothing is restored —
and a lease can still be acquired (the refcount is bumped and a token
returned) while the driver state stays untouched. -/
theorem update_download_mode_zero_limit (s : TdpManagerService) (id : String) (d : Nat)
    (hact : s.manager.is_active = true) (hdml : s.download_mode_limit = some d)
    (hcur : s.manager.tdp_limit = 0) :
    s.update_download_mode = (.ok (), s) ∧
    s.get_download_mode_handle id =
      (.ok (some ()), { s with download_handles := bumpHandle id s.download_handles }) := by
  have h1 : ∀ t : TdpManagerService, t.manager = s.manager → t.download_mode_limit = some d →
      t.update_download_mode = (.ok (), t) := by
    intro t hm hd
    unfold TdpManagerService.update_download_mode
    rw [hm, hd, hact, hcur]
    simp
  refine ⟨h1 s rfl hdml, ?_⟩
  unfold TdpManagerService.get_download_mode_handle
  rw [hdml]
  have h2 := h1
    { s with
      download_handles := bumpHandle id s.download_handles,
      download_mode_limit := some d } rfl rfl
  rw [h2]

/-- Witness for claim C10 at a concrete state. -/
theorem update_download_mode_zero_limit_witness :
    (let s : TdpManagerService :=
      { download_handles := [], previous_limit := none, download_mode_limit := some 6,
        manager := { is_active := true, tdp_limit := 0, range_min := 3, range_max := 15,
                     writes := [] } }
     s.manager.is_active = true ∧ s.download_mode_limit = some 6 ∧ s.manager.tdp_limit = 0 ∧
     (s.update_download_mode = (.ok (), s) ∧
      s.get_download_mode_handle "x" =
        (.ok (some ()), { s with download_handles := bumpHandle "x" s.download_handles }))) :=
  ⟨rfl, rfl, rfl, update_download_mode_zero_limit _ "x" 6 rfl rfl rfl⟩

/-! ## Claim C1: the discarded SetLimit value is never written -/

theorem set_tdp_limit_writes (s : TdpManagerService) (v : Nat) :
    ((s.set_tdp_limit v).2.manager.writes = s.manager.writes ∧
      (s.set_tdp_limit v).2.previous_limit = s.previous_limit) ∨
    ((s.set_tdp_limit v).2.manager.writes = s.manager.writes ++ [v] ∧
      (s.set_tdp_limit v).2.previous_limit = s.previous_limit) := by
  unfold TdpManagerService.set_tdp_limit TdpLimitManager.set_tdp_limit
  by_cases h1 : s.manager.is_active = false
  · simp [h1]
  · by_cases h2 : s.manager.range_min ≤ v ∧ v ≤ s.manager.range_max
    · simp [h1, h2]
    · simp [h1, h2]

theorem service_set_cases (s : TdpManagerService) (v : Nat) :
    (s.set_tdp_limit v = (.ok (),
      { s with manager :=
        { s.manager with
          tdp_limit := v,
          writes := s.manager.writes ++ [v] } })) ∨
    (∃ e, s.set_tdp_limit v = (.error e, s)) := by
  unfold TdpManagerService.set_tdp_limit TdpLimitManager.set_tdp_limit
  by_cases h1 : s.manager.is_active = false
  · rw [if_pos h1]
    exact Or.inr ⟨_, rfl⟩
  · rw [if_neg h1]
    by_cases h2 : s.manager.range_min ≤ v ∧ v ≤ s.manager.range_max
    · rw [if_pos h2]
      exact Or.inl rfl
    · rw [if_neg h2]
      exact Or.inr ⟨_, rfl⟩

theorem update_download_mode_empty_cases (s : TdpManagerService)
    (h : s.download_handles = []) :
    ((s.update_download_mode.2.manager = s.manager ∧
      s.update_download_mode.2.previous_limit = s.previous_limit) ∨
    (∃ p, s.previous_limit = some p ∧
      s.update_download_mode.2.manager.writes = s.manager.writes ++ [p] ∧
      s.update_download_mode.2.previous_limit = none)) := by
  unfold TdpManagerService.update_download_mode
  split
  · exact Or.inl ⟨rfl, rfl⟩
  · split
    · exact Or.inl ⟨rfl, rfl⟩
    · split
      · exact Or.inl ⟨rfl, rfl⟩
      · split
        · exact Or.inl ⟨rfl, rfl⟩
        · rename_i p hprev
          rcases service_set_cases s p with hok | ⟨e, herr⟩
          · rw [hok]
            exact Or.inr ⟨p, hprev, rfl, rfl⟩
          · rw [herr]
            exact Or.inl ⟨rfl, rfl⟩

theorem release_download_handle_cases (s : TdpManagerService) (id : String) :
    (((s.release_download_handle id).manager = s.manager ∧
      (s.release_download_handle id).previous_limit = s.previous_limit) ∨
    (∃ p, s.previous_limit = some p ∧
      (s.release_download_handle id).manager.writes = s.manager.writes ++ [p] ∧
      (s.release_download_handle id).previous_limit = none)) := by
  unfold TdpManagerService.release_download_handle
  split
  · exact Or.inl ⟨rfl, rfl⟩
  · by_cases he : aerase id s.download_handles = []
    · rw [if_pos he, he]
      have hm := update_download_mode_empty_cases
        { s with download_handles := ([] : List (String × Nat)) } rfl
      simpa using hm
    · rw [if_neg he]
      exact Or.inl ⟨rfl, rfl⟩
  · exact Or.inl ⟨rfl, rfl⟩

theorem releaseAll_writes (ids : List String) : ∀ s : TdpManagerService,
    (((s.releaseAll ids).manager = s.manager ∧
      (s.releaseAll ids).previous_limit = s.previous_limit) ∨
    (∃ p, s.previous_limit = some p ∧
      (s.releaseAll ids).manager.writes = s.manager.writes ++ [p] ∧
      (s.releaseAll ids).previous_limit = none)) := by
  induction ids with
  | nil => exact fun s => Or.inl ⟨rfl, rfl⟩
  | cons id ids ih =>
    intro s
    have hstep := release_download_handle_cases s id
    have hrest := ih (s.release_download_handle id)
    simp only [TdpManagerService.releaseAll]
    rcases hstep with ⟨hm, hp⟩ | ⟨p, hp, hw, hpn⟩
    · rcases hrest with ⟨hm2, hp2⟩ | ⟨q, hq, hw2, hpn2⟩
      · exact Or.inl ⟨hm2.trans hm, hp2.trans hp⟩
      · exact Or.inr ⟨q, hp.symm.trans hq, by rw [hw2, hm], hpn2⟩
    · rcases hrest with ⟨hm2, hp2⟩ | ⟨q, hq, hw2, hpn2⟩
      · refine Or.inr ⟨p, hp, ?_, hp2.trans hpn⟩
        rw [hm2, hw]
      · rw [hpn] at hq
        exact absurd hq (by simp)

/-- Claim C1: while the lease table is non-empty, `SetLimit(v)` performs no
driver write and leaves the arbiter state untouched; and however many lease
releases later follow, the driver write log grows at most by the cached
previous limit — the discarded value `v` is never replayed. -/
theorem setTdpLimit_discarded_under_leases (s : TdpManagerService) (v : Nat)
    (ids : List String) (h : s.download_handles ≠ []) :
    s.handle_command (.setTdpLimit v) = (.ok (), s) ∧
    ((((s.handle_command (.setTdpLimit v)).2.releaseAll ids).manager.writes
        = s.manager.writes) ∨
      (∃ p, s.previous_limit = some p ∧
        ((s.handle_command (.setTdpLimit v)).2.releaseAll ids).manager.writes
          = s.manager.writes ++ [p])) := by
  have h1 : s.handle_command (.setTdpLimit v) = (.ok (), s) := by
    unfold TdpManagerService.handle_command
    simp [h]
  refine ⟨h1, ?_⟩
  rw [h1]
  rcases releaseAll_writes ids s with ⟨hm, _⟩ | ⟨p, hp, hw, _⟩
  · exact Or.inl (by rw [hm])
  · exact Or.inr ⟨p, hp, hw⟩

/-- Witness for claim C1 at a concrete state: one lease held, cached
previous limit 15, discarded value 9, then the lease is released. -/
theorem setTdpLimit_discarded_under_leases_witness :
    (let s : TdpManagerService :=
      { download_handles := [("a", 1)], previous_limit := some 15,
        download_mode_limit := some 6,
        manager := { is_active := true, tdp_limit := 6, range_min := 3, range_max := 15,
                     writes := [6] } }
     s.download_handles ≠ [] ∧
     (s.handle_command (.setTdpLimit 9) = (.ok (), s) ∧
      ((((s.handle_command (.setTdpLimit 9)).2.releaseAll ["a"]).manager.writes
          = s.manager.writes) ∨
        (∃ p, s.previous_limit = some p ∧
          ((s.handle_command (.setTdpLimit 9)).2.releaseAll ["a"]).manager.writes
            = s.manager.writes ++ [p])))) :=
  ⟨by decide, setTdpLimit_discarded_under_leases _ 9 ["a"] (by decide)⟩

/-! ## Claim C8: out-of-range SetLimit is rejected before any write -/

/-- Claim C8: for every value outside the configured range, both driver
implementations fail `set_tdp_limit` with the explicit "Invalid limit"
range error and leave the device state unchanged — the range check precedes
every sysfs write. -/
theorem set_tdp_limit_range_rejection (a : AmdgpuHwmonTdpLimitManager)
    (f : FirmwareAttributeLimitManager) (lo hi v : Nat)
    (ha : a.range = some (lo, hi)) (hav : v < lo ∨ hi < v)
    (hf : f.is_active = true) (hfv : v < f.min_value ∨ f.max_value < v) :
    a.set_tdp_limit v = (.error "Invalid limit", a) ∧
    f.set_tdp_limit v = (.error "Invalid limit", f) := by
  constructor
  · unfold AmdgpuHwmonTdpLimitManager.set_tdp_limit
      AmdgpuHwmonTdpLimitManager.get_tdp_limit_range
    simp only [ha]
    rw [if_neg (by omega : ¬(lo ≤ v ∧ v ≤ hi))]
  · unfold FirmwareAttributeLimitManager.set_tdp_limit
    rw [if_neg (by rw [hf]; simp : ¬(f.is_active = false)),
      if_neg (by omega : ¬(f.min_value ≤ v ∧ v ≤ f.max_value))]

/-- Witness for claim C8: range [3,15], rejected values 20 and 2. -/
theorem set_tdp_limit_range_rejection_witness :
    (let a : AmdgpuHwmonTdpLimitManager :=
      { range := some (3, 15), power1_cap := 15000000, power2_cap := 15000000 }
     let f : FirmwareAttributeLimitManager :=
      { is_active := true, min_value := 3, max_value := 15, spl := 15, sppt := 15, fppt := 15 }
     (a.range = some (3, 15) ∧ (20 < 3 ∨ 15 < 20) ∧ f.is_active = true ∧
        (20 < f.min_value ∨ f.max_value < 20) ∧ (2 < 3 ∨ 15 < 2) ∧
        (2 < f.min_value ∨ f.max_value < 2)) ∧
     (a.set_tdp_limit 20 = (.error "Invalid limit", a) ∧
      f.set_tdp_limit 20 = (.error "Invalid limit", f)) ∧
     (a.set_tdp_limit 2 = (.error "Invalid limit", a) ∧
      f.set_tdp_limit 2 = (.error "Invalid limit", f))) :=
  ⟨⟨rfl, Or.inr (by decide), rfl, Or.inr (by decide), Or.inl (by decide),
      Or.inl (by decide)⟩,
   set_tdp_limit_range_rejection _ _ 3 15 20 rfl (Or.inr (by decide)) rfl
     (Or.inr (by decide)),
   set_tdp_limit_range_rejection _ _ 3 15 2 rfl (Or.inl (by decide)) rfl
     (Or.inl (by decide))⟩

/-! ## Claim C3: coalescing — last value wins, earlier senders superseded -/

/-- The supersede notices a run of sends delivers while replacing its own
requests: receiver ids `a + n - 1` down to `a`, newest first. -/
def descS (a : Nat) : Nat → List (Nat × SysfsWritten)
  | 0 => []
  | n + 1 => (a + n, .superseded) :: descS a n

/-- The notice delivered to the request pending at `p` before a run of
sends, if one was pending. -/
def oldMark (p : String) (q : SysfsWriterQueue) : List (Nat × SysfsWritten) :=
  match alookup p q.values with
  | some (_, t) => [(t, .superseded)]
  | none => []

theorem descS_shift (a : Nat) :
    ∀ n, descS a (n + 1) = descS (a + 1) n ++ [(a, .superseded)] := by
  intro n
  induction n with
  | zero => simp [descS]
  | succ m ih =>
    have hn : a + (m + 1) = (a + 1) + m := by omega
    show (a + (m + 1), SysfsWritten.superseded) :: descS a (m + 1)
        = descS (a + 1) (m + 1) ++ [(a, .superseded)]
    rw [ih, hn]
    rfl

theorem alookup_descS (a n : Nat) : ∀ i, i < n → ∀ rest : List (Nat × SysfsWritten),
    alookup (a + i) (descS a n ++ rest) = some .superseded := by
  induction n with
  | zero =>
    intro i h rest
    omega
  | succ m ih =>
    intro i h rest
    show alookup (a + i) (((a + m, SysfsWritten.superseded) :: descS a m) ++ rest) = _
    rw [List.cons_append, alookup_cons]
    by_cases hi : i = m
    · rw [if_pos (by omega)]
    · rw [if_neg (by omega)]
      exact ih i (by omega) rest

theorem send_spec (q : SysfsWriterQueue) (p v : String) :
    (q.send p v).1 = q.nextId ∧
    (q.send p v).2.nextId = q.nextId + 1 ∧
    (q.send p v).2.files = q.files ∧
    alookup p (q.send p v).2.values = some (v, q.nextId) ∧
    (q.send p v).2.delivered = oldMark p q ++ q.delivered := by
  rcases hl : alookup p q.values with _ | ⟨c, t⟩
  · simp [SysfsWriterQueue.send, oldMark, hl]
  · simp [SysfsWriterQueue.send, oldMark, hl,
      alookup_aset_self p (v, q.nextId) (c, t) q.values hl]

theorem sendAll_spec (p : String) : ∀ (vs : List String) (v : String) (q : SysfsWriterQueue),
    (q.sendAll p (v :: vs)).1 = List.range' q.nextId (vs.length + 1) ∧
    (q.sendAll p (v :: vs)).2.nextId = q.nextId + (vs.length + 1) ∧
    (q.sendAll p (v :: vs)).2.files = q.files ∧
    alookup p (q.sendAll p (v :: vs)).2.values
      = some (vs.getLastD v, q.nextId + vs.length) ∧
    (q.sendAll p (v :: vs)).2.delivered
      = descS q.nextId vs.length ++ oldMark p q ++ q.delivered := by
  intro vs
  induction vs with
  | nil =>
    intro v q
    obtain ⟨h1, h2, h3, h4, h5⟩ := send_spec q p v
    refine ⟨?_, ?_, ?_, ?_, ?_⟩
    · simp [SysfsWriterQueue.sendAll, h1, List.range']
    · simpa [SysfsWriterQueue.sendAll] using h2
    · simpa [SysfsWriterQueue.sendAll] using h3
    · simpa [SysfsWriterQueue.sendAll] using h4
    · simpa [SysfsWriterQueue.sendAll, descS] using h5
  | cons w ws ih =>
    intro v q
    obtain ⟨h1, h2, h3, h4, h5⟩ := send_spec q p v
    obtain ⟨g1, g2, g3, g4, g5⟩ := ih w (q.send p v).2
    have hom : oldMark p (q.send p v).2 = [(q.nextId, .superseded)] := by
      unfold oldMark
      rw [h4]
    refine ⟨?_, ?_, ?_, ?_, ?_⟩
    · show (q.send p v).1 :: ((q.send p v).2.sendAll p (w :: ws)).1 = _
      rw [h1, g1, h2]
      simp [List.range'_succ]
    · show ((q.send p v).2.sendAll p (w :: ws)).2.nextId = _
      rw [g2, h2, List.length_cons]
      omega
    · show ((q.send p v).2.sendAll p (w :: ws)).2.files = _
      rw [g3, h3]
    · show alookup p ((q.send p v).2.sendAll p (w :: ws)).2.values = _
      rw [g4, h2, List.getLastD_cons, List.length_cons]
      congr 2
      omega
    · show ((q.send p v).2.sendAll p (w :: ws)).2.delivered = _
      rw [g5, hom, h5, h2, List.length_cons, descS_shift]
      simp [List.append_assoc]

/-- Claim C3: for every queue state, path and nonempty burst of values sent
before the worker drains the path, the receivers handed out are the fresh
ids `nextId, nextId+1, …`; after the worker drains the path the file holds
the last value sent, the last send's receiver is told `Written(Ok)`, and
every earlier send's receiver is told `Superseded`. -/
theorem sysfs_writer_coalescing (q : SysfsWriterQueue) (p : String) (vs : List String)
    (hne : vs ≠ []) :
    (q.sendAll p vs).1 = List.range' q.nextId vs.length ∧
    alookup p ((q.sendAll p vs).2.drainPath p).files = vs.getLast? ∧
    alookup (q.nextId + (vs.length - 1)) ((q.sendAll p vs).2.drainPath p).delivered =
      some (.written (.ok ())) ∧
    ∀ i, i + 1 < vs.length →
      alookup (q.nextId + i) ((q.sendAll p vs).2.drainPath p).delivered =
        some .superseded := by
  cases vs with
  | nil => exact absurd rfl hne
  | cons v vs' =>
    obtain ⟨h1, h2, h3, h4, h5⟩ := sendAll_spec p vs' v q
    have hdrain : (q.sendAll p (v :: vs')).2.drainPath p =
        { values := aerase p (q.sendAll p (v :: vs')).2.values,
          delivered := (q.nextId + vs'.length, .written (.ok ())) ::
            (q.sendAll p (v :: vs')).2.delivered,
          files := (p, vs'.getLastD v) :: aerase p (q.sendAll p (v :: vs')).2.files,
          nextId := (q.sendAll p (v :: vs')).2.nextId } := by
      unfold SysfsWriterQueue.drainPath
      rw [h4]
      rfl
    refine ⟨by simpa using h1, ?_, ?_, ?_⟩
    · rw [hdrain]
      simp [List.getLast?_cons, List.getLastD_eq_getLast?]
    · rw [hdrain]
      simp [List.length_cons, Nat.add_sub_cancel]
    · intro i hi
      have hilt : i < vs'.length := by
        simp only [List.length_cons] at hi
        omega
      rw [hdrain]
      show alookup (q.nextId + i) ((q.nextId + vs'.length, SysfsWritten.written (.ok ())) ::
        (q.sendAll p (v :: vs')).2.delivered) = some .superseded
      rw [alookup_cons, if_neg (by omega : ¬(q.nextId + vs'.length = q.nextId + i)), h5,
        List.append_assoc]
      exact alookup_descS q.nextId vs'.length i hilt _

/-- Witness for claim C3: two sends ("1" then "2") of the same path on a
fresh queue, then one drain. -/
theorem sysfs_writer_coalescing_witness :
    ((["1", "2"] : List String) ≠ []) ∧
    ((SysfsWriterQueue.new.sendAll "p" ["1", "2"]).1 = List.range' 0 2 ∧
     alookup "p" ((SysfsWriterQueue.new.sendAll "p" ["1", "2"]).2.drainPath "p").files =
       (["1", "2"] : List String).getLast? ∧
     alookup (0 + (2 - 1))
         ((SysfsWriterQueue.new.sendAll "p" ["1", "2"]).2.drainPath "p").delivered =
       some (.written (.ok ())) ∧
     ∀ i, i + 1 < 2 →
       alookup (0 + i)
           ((SysfsWriterQueue.new.sendAll "p" ["1", "2"]).2.drainPath "p").delivered =
         some .superseded) :=
  ⟨by decide, sysfs_writer_coalescing SysfsWriterQueue.new "p" ["1", "2"] (by decide)⟩
